import Mathlib

/-!
Shallow embedding of the audio capture and segmented transcription pipeline
of the listener-ai repository, together with theorems checking the
natural-language specification against it.

The embedding follows the source:
* `GeminiService` (segmented transcription, retry, merge, duration probe,
  duration gate) from src/geminiService.ts and the GeminiService variant
  carried in src/services/updateService.ts;
* `SimpleAudioRecorder` (start/stop recording state) from
  src/simpleAudioRecorder.ts;
* `FFmpegManager` (binary download, cancellation, validation, resolution)
  from the FFmpeg manager module.

Durations are rationals (JS numbers used for arithmetic that stays exact
here); byte counts and delays are naturals; the external transcription
client is an abstract function from attempt number to an optional
transcript, so every completion/failure pattern can be quantified over.
-/

namespace ListenerAI

/-- Result record produced for one segment: its 0-based index tags the
result so the merge step can re-establish original order. Mirrors the
object literal in GeminiService.transcribeSingleSegment. -/
structure SegmentResult where
  index : Nat
  content : String
  deriving Repr, DecidableEq

/-- Segment start time in seconds: segmentStartTime = i * 300
(GeminiService.getSegmentedTranscript). -/
def segmentStartTime (i : Nat) : ℚ := (i : ℚ) * 300

/-- Segment end time in seconds:
segmentEndTime = Math.min(segmentStartTime + 300, duration). -/
def segmentEndTime (duration : ℚ) (i : Nat) : ℚ :=
  min ((i : ℚ) * 300 + 300) duration

/-- Number of segment files produced by splitting a recording of the given
duration into 300-second pieces (ffmpeg -f segment -segment_time 300):
the ceiling of duration / 300. -/
def numSegments (duration : ℚ) : Nat := ⌈duration / 300⌉₊

/-- JS n.toString().padStart(2, "0") for a natural number. -/
def pad2 (n : Nat) : String :=
  if n < 10 then "0" ++ toString n else toString n

/-- JS remainder a % b for nonnegative operands (fmod). -/
def jsMod (a b : ℚ) : ℚ := a - b * (⌊a / b⌋ : ℤ)

/-- GeminiService.formatTime: HH:MM:SS rendering with Math.floor and
two-digit zero padding. -/
def formatTime (seconds : ℚ) : String :=
  let hours : Nat := (⌊seconds / 3600⌋).toNat
  let minutes : Nat := (⌊jsMod seconds 3600 / 60⌋).toNat
  let secs : Nat := (⌊jsMod seconds 60⌋).toNat
  pad2 hours ++ ":" ++ pad2 minutes ++ ":" ++ pad2 secs

/-- GeminiService.createSegmentHeader: the per-segment time-range header
line prepended to a successfully transcribed segment. -/
def createSegmentHeader (i : Nat) (startT endT : ℚ) : String :=
  "[Segment " ++ toString (i + 1) ++ ": " ++ formatTime startT ++ " ~ " ++
    formatTime endT ++ "]\n\n"

/-- The placeholder content stored for a segment whose three transcription
attempts all failed (GeminiService.transcribeSingleSegment, final return). -/
def failedPlaceholder (i : Nat) : String :=
  "[Segment " ++ toString (i + 1) ++ " transcription failed after 3 attempts]"

/-- Backoff delay before retrying a failed attempt:
Math.min(1000 * Math.pow(2, attempt - 1), 10000). -/
def retryDelay (attempt : Nat) : Nat := min (1000 * 2 ^ (attempt - 1)) 10000

/-- The retry loop of GeminiService.transcribeSingleSegment, abstracted
over the client: `call a` is the outcome of attempt number `a` (some
transcript on success, none on failure). Returns the first success (with
the attempt number that produced it) and the list of backoff delays that
were waited, in order. maxRetries is 3 in the source. -/
def segAttemptGo (call : Nat → Option String) (attempt : Nat) :
    Option (Nat × String) × List Nat :=
  if 3 < attempt then (none, [])
  else
    match call attempt with
    | some t => (some (attempt, t), [])
    | none =>
      if attempt < 3 then
        let rest := segAttemptGo call (attempt + 1)
        (rest.1, retryDelay attempt :: rest.2)
      else (none, [])
termination_by 4 - attempt
decreasing_by omega

/-- GeminiService.transcribeSingleSegment: runs the retry loop starting at
attempt 1; on success the content is the time-range header followed by the
transcript, on exhaustion it is the failure placeholder. -/
def transcribeSingleSegment (call : Nat → Option String) (i : Nat)
    (startT endT : ℚ) : SegmentResult :=
  match (segAttemptGo call 1).1 with
  | some (_, t) => ⟨i, createSegmentHeader i startT endT ++ t⟩
  | none => ⟨i, failedPlaceholder i⟩

instance : DecidableRel (fun a b : SegmentResult => a.index ≤ b.index) :=
  fun a b => Nat.decLe a.index b.index

/-- segmentResults.sort((a, b) => a.index - b.index): comparison sort on
the index tag, modelled by insertion sort. -/
def sortByIndex (rs : List SegmentResult) : List SegmentResult :=
  rs.insertionSort (fun a b => a.index ≤ b.index)

/-- The visible separator placed between adjacent segment texts in the
merged transcript. -/
def segmentSeparator : String := "\n\n---\n\n"

/-- The merge step of GeminiService.getSegmentedTranscript: sort the
collected results by index, extract contents in order, join with the
separator. -/
def mergeSegmentResults (rs : List SegmentResult) : String :=
  String.intercalate segmentSeparator ((sortByIndex rs).map SegmentResult.content)

/-- The per-segment results in submission (index) order, as built by the
segmentFiles.map fan-out: segment i is transcribed with start time i*300
and end time min(i*300 + 300, duration). `call i a` is the outcome of
attempt `a` on segment `i`. -/
def canonicalResults (N : Nat) (call : Nat → Nat → Option String)
    (duration : ℚ) : List SegmentResult :=
  (List.range N).map (fun i =>
    transcribeSingleSegment (call i) i (segmentStartTime i) (segmentEndTime duration i))

/-- GeminiService.getSegmentedTranscript for a recording split into N
segments: transcribe every segment (concurrently in the source; outcomes
are captured by `call`), then merge. -/
def getSegmentedTranscript (N : Nat) (call : Nat → Nat → Option String)
    (duration : ℚ) : String :=
  mergeSegmentResults (canonicalResults N call duration)

/-- Which step-1 path GeminiService.transcribeWithTwoSteps takes. -/
inductive TranscriptMode where
  | segmented
  | short
  deriving Repr, DecidableEq

/-- The duration gate in GeminiService.transcribeWithTwoSteps:
if (duration > 300) use the segmented path else the whole-file path. -/
def chooseTranscriptMode (duration : ℚ) : TranscriptMode :=
  if 300 < duration then .segmented else .short

/-- How many pieces of audio are submitted for transcription for a probed
duration: the split only happens on the segmented path; the short path
submits the whole file once. -/
def piecesProcessed (duration : ℚ) : Nat :=
  match chooseTranscriptMode duration with
  | .segmented => numSegments duration
  | .short => 1

/-- C6. Duration gate: the segmented (split) path of
transcribeWithTwoSteps is taken exactly when the probed duration exceeds
300 seconds; for a duration of at most 300 seconds no split happens and
exactly one piece (the whole file) is transcribed. -/
theorem c6_duration_gate (d : ℚ) :
    (chooseTranscriptMode d = .segmented ↔ 300 < d) ∧
    (d ≤ 300 → chooseTranscriptMode d = .short ∧ piecesProcessed d = 1) := by
  constructor
  · simp only [chooseTranscriptMode]
    split_ifs with h <;> simp [h]
  · intro hle
    have hnot : ¬ (300 < d) := not_lt.mpr hle
    simp [chooseTranscriptMode, piecesProcessed, hnot]

/-- Witness for C6 at duration 120 (≤ 300): short path, one piece. -/
theorem c6_duration_gate_witness :
    chooseTranscriptMode 120 = .short ∧ piecesProcessed 120 = 1 :=
  (c6_duration_gate 120).2 (by norm_num)

/-- C7. For a duration above 300 seconds and segment length 300, the
segment count is ceil(duration / 300) and the per-segment time ranges
[i*300, min(i*300 + 300, duration)] partition [0, duration]: the first
range starts at 0, consecutive ranges meet with no gap and no overlap,
the last range ends at the duration, and every range is nonempty. -/
theorem c7_segment_partition (d : ℚ) (h : 300 < d) :
    numSegments d = ⌈d / 300⌉₊ ∧
    2 ≤ numSegments d ∧
    segmentStartTime 0 = 0 ∧
    (∀ i, i + 1 < numSegments d → segmentEndTime d i = segmentStartTime (i + 1)) ∧
    segmentEndTime d (numSegments d - 1) = d ∧
    (∀ i, i < numSegments d → segmentStartTime i < segmentEndTime d i) := by
  have h300 : (0:ℚ) < 300 := by norm_num
  have two_le : 2 ≤ numSegments d := by
    have h1 : (1:ℚ) < d / 300 := (one_lt_div h300).mpr h
    have : 1 < ⌈d / 300⌉₊ := Nat.lt_ceil.mpr (by exact_mod_cast h1)
    simpa [numSegments] using this
  refine ⟨rfl, two_le, by simp [segmentStartTime], ?_, ?_, ?_⟩
  · intro i hi
    have hceil : i + 1 < ⌈d / 300⌉₊ := by simpa [numSegments] using hi
    have hcast : ((i + 1 : ℕ) : ℚ) < d / 300 := Nat.lt_ceil.mp hceil
    have hlt : ((i:ℚ) + 1) * 300 < d := by
      rw [lt_div_iff₀ h300] at hcast
      push_cast at hcast
      linarith
    simp only [segmentEndTime, segmentStartTime]
    rw [min_eq_left (by linarith)]
    push_cast
    ring
  · have hle : d / 300 ≤ (numSegments d : ℚ) :=
      Nat.ceil_le.mp (le_refl (numSegments d))
    have hdN : d ≤ (numSegments d : ℚ) * 300 := by
      rw [div_le_iff₀ h300] at hle
      linarith
    have h1N : 1 ≤ numSegments d := by omega
    simp only [segmentEndTime]
    rw [min_eq_right]
    have : ((numSegments d - 1 : ℕ) : ℚ) = (numSegments d : ℚ) - 1 := by
      push_cast [Nat.cast_sub h1N]
      ring
    rw [this]
    linarith
  · intro i hi
    have hcast : ((i : ℕ) : ℚ) < d / 300 := Nat.lt_ceil.mp (by simpa [numSegments] using hi)
    have hid : (i:ℚ) * 300 < d := by
      rw [lt_div_iff₀ h300] at hcast
      linarith
    simp only [segmentStartTime, segmentEndTime]
    exact lt_min (by linarith) hid

/-- Witness for C7 at duration 750 (> 300). -/
theorem c7_segment_partition_witness :
    numSegments 750 = ⌈(750:ℚ) / 300⌉₊ ∧
    2 ≤ numSegments 750 ∧
    segmentStartTime 0 = 0 ∧
    (∀ i, i + 1 < numSegments 750 →
      segmentEndTime 750 i = segmentStartTime (i + 1)) ∧
    segmentEndTime 750 (numSegments 750 - 1) = 750 ∧
    (∀ i, i < numSegments 750 → segmentStartTime i < segmentEndTime 750 i) :=
  c7_segment_partition 750 (by norm_num)

/-- Outcome of the ffmpeg duration probe as getAudioDuration observes it:
the invocation may throw, or it ran and the code holds the optional
regex match on stderr (captured hours, minutes, seconds) and the optional
numeric parse of stdout. -/
inductive ProbeOutcome where
  | threw
  | ran (stderrMatch : Option (Nat × Nat × ℚ)) (stdoutParse : Option ℚ)

/-- GeminiService.getAudioDuration: a stderr Duration match yields
hours*3600 + minutes*60 + seconds; otherwise a parsable stdout is used;
otherwise, and when the probe throws, the result is 0. -/
def getAudioDuration : ProbeOutcome → ℚ
  | .threw => 0
  | .ran (some (h, m, s)) _ => (h : ℚ) * 3600 + (m : ℚ) * 60 + s
  | .ran none (some v) => v
  | .ran none none => 0

/-- C10. When the duration probe throws or nothing parses, getAudioDuration
returns 0 rather than propagating an error, and the 0 duration sends the
job down the single-file (unsegmented) path with exactly one piece. -/
theorem c10_probe_fallback (o : ProbeOutcome)
    (h : o = .threw ∨ o = .ran none none) :
    getAudioDuration o = 0 ∧
    chooseTranscriptMode (getAudioDuration o) = .short ∧
    piecesProcessed (getAudioDuration o) = 1 := by
  have h0 : getAudioDuration o = 0 := by
    rcases h with h | h <;> subst h <;> rfl
  have hnot : ¬ ((300:ℚ) < 0) := by norm_num
  refine ⟨h0, ?_, ?_⟩ <;> rw [h0] <;>
    simp [chooseTranscriptMode, piecesProcessed, hnot]

/-- Witness for C10: the probe threw. -/
theorem c10_probe_fallback_witness :
    getAudioDuration .threw = 0 ∧
    chooseTranscriptMode (getAudioDuration .threw) = .short ∧
    piecesProcessed (getAudioDuration .threw) = 1 :=
  c10_probe_fallback .threw (Or.inl rfl)

/-- A successful segment content (header followed by transcript) is never
the failure placeholder: after the shared prefix and the segment number,
the header continues with a colon while the placeholder continues with a
space. -/
theorem header_append_ne_failedPlaceholder (i : Nat) (s e : ℚ) (t : String) :
    createSegmentHeader i s e ++ t ≠ failedPlaceholder i := by
  intro hEq
  have hdata := congrArg String.data hEq
  simp only [createSegmentHeader, failedPlaceholder, String.data_append,
    List.append_assoc] at hdata
  have h1 := List.append_cancel_left hdata
  have h2 := List.append_cancel_left h1
  have h3 := congrArg List.head? h2
  simp [List.head?_append] at h3

/-- C2. The per-segment retry policy of transcribeSingleSegment: a segment
is marked failed exactly when all 3 attempts fail; a success is the first
attempt (at most the third) whose call succeeded, with all earlier
attempts failed and the header-prefixed transcript stored; between
consecutive attempts the loop waits retryDelay(attempt) =
min(1000 * 2^(attempt-1), 10000) milliseconds: 1000ms after the first
failure, 2000ms after the second, and no wait after the final attempt. -/
theorem c2_segment_retry (call : Nat → Option String) (i : Nat) (s e : ℚ) :
    ((transcribeSingleSegment call i s e).content = failedPlaceholder i ↔
      call 1 = none ∧ call 2 = none ∧ call 3 = none) ∧
    (∀ a t, (segAttemptGo call 1).1 = some (a, t) →
      1 ≤ a ∧ a ≤ 3 ∧ call a = some t ∧
      (transcribeSingleSegment call i s e).content =
        createSegmentHeader i s e ++ t ∧
      ∀ b, 1 ≤ b → b < a → call b = none) ∧
    ((segAttemptGo call 1).2 =
      match call 1, call 2 with
      | some _, _ => []
      | none, some _ => [retryDelay 1]
      | none, none => [retryDelay 1, retryDelay 2]) ∧
    retryDelay 1 = 1000 ∧ retryDelay 2 = 2000 ∧
    (∀ a, retryDelay a = min (1000 * 2 ^ (a - 1)) 10000) := by
  rcases h1 : call 1 with _ | t1
  · rcases h2 : call 2 with _ | t2
    · rcases h3 : call 3 with _ | t3
      · -- all three attempts fail
        have hgo : segAttemptGo call 1 = (none, [retryDelay 1, retryDelay 2]) := by
          simp [segAttemptGo, h1, h2, h3]
        refine ⟨?_, ?_, ?_, by decide, by decide, fun a => rfl⟩
        · simp [transcribeSingleSegment, hgo]
        · intro a t hat
          rw [hgo] at hat
          simp at hat
        · rw [hgo]
      · -- success at the third attempt
        have hgo : segAttemptGo call 1 =
            (some (3, t3), [retryDelay 1, retryDelay 2]) := by
          simp [segAttemptGo, h1, h2, h3]
        refine ⟨?_, ?_, ?_, by decide, by decide, fun a => rfl⟩
        · simp [transcribeSingleSegment, hgo, h3,
            header_append_ne_failedPlaceholder]
        · intro a t hat
          rw [hgo] at hat
          simp only [Option.some.injEq, Prod.mk.injEq] at hat
          obtain ⟨rfl, rfl⟩ := hat
          refine ⟨by omega, by omega, h3, by simp [transcribeSingleSegment, hgo], ?_⟩
          intro b hb1 hb3
          interval_cases b
          · exact h1
          · exact h2
        · rw [hgo]
    · -- success at the second attempt
      have hgo : segAttemptGo call 1 = (some (2, t2), [retryDelay 1]) := by
        simp [segAttemptGo, h1, h2]
      refine ⟨?_, ?_, ?_, by decide, by decide, fun a => rfl⟩
      · simp [transcribeSingleSegment, hgo, h2,
          header_append_ne_failedPlaceholder]
      · intro a t hat
        rw [hgo] at hat
        simp only [Option.some.injEq, Prod.mk.injEq] at hat
        obtain ⟨rfl, rfl⟩ := hat
        refine ⟨by omega, by omega, h2, by simp [transcribeSingleSegment, hgo], ?_⟩
        intro b hb1 hb2
        interval_cases b
        exact h1
      · rw [hgo]
  · -- success at the first attempt
    have hgo : segAttemptGo call 1 = (some (1, t1), []) := by
      simp [segAttemptGo, h1]
    refine ⟨?_, ?_, ?_, by decide, by decide, fun a => rfl⟩
    · simp [transcribeSingleSegment, hgo, h1,
        header_append_ne_failedPlaceholder]
    · intro a t hat
      rw [hgo] at hat
      simp only [Option.some.injEq, Prod.mk.injEq] at hat
      obtain ⟨rfl, rfl⟩ := hat
      refine ⟨by omega, by omega, h1, by simp [transcribeSingleSegment, hgo], ?_⟩
      intro b hb1 hb0
      omega
    · rw [hgo]

/-- Witness for C2: a client that fails every attempt yields the failure
placeholder and the two backoff delays 1000ms and 2000ms. -/
theorem c2_segment_retry_witness :
    (transcribeSingleSegment (fun _ => none) 0 0 300).content =
      failedPlaceholder 0 ∧
    (segAttemptGo (fun _ => none) 1).2 = [1000, 2000] := by
  have h := c2_segment_retry (fun _ => none) 0 0 300
  refine ⟨h.1.mpr ⟨rfl, rfl, rfl⟩, ?_⟩
  rw [h.2.2.1]
  simp [h.2.2.2.1, h.2.2.2.2.1]

/-- The index tag of a segment result is the segment's 0-based index,
whether the transcription succeeded or exhausted its retries. -/
theorem transcribeSingleSegment_index (call : Nat → Option String) (i : Nat)
    (s e : ℚ) : (transcribeSingleSegment call i s e).index = i := by
  rcases h : (segAttemptGo call 1).1 with _ | ⟨a, t⟩ <;>
    simp [transcribeSingleSegment, h]

/-- If every attempt on a segment fails, the retry loop reports failure
after waiting the two backoff delays. -/
theorem segAttemptGo_all_fail (call : Nat → Option String)
    (h1 : call 1 = none) (h2 : call 2 = none) (h3 : call 3 = none) :
    segAttemptGo call 1 = (none, [retryDelay 1, retryDelay 2]) := by
  simp [segAttemptGo, h1, h2, h3]

/-- If the first attempt succeeds, the retry loop returns it with no
backoff delay. -/
theorem segAttemptGo_first_succeeds (call : Nat → Option String) (t : String)
    (h1 : call 1 = some t) : segAttemptGo call 1 = (some (1, t), []) := by
  simp [segAttemptGo, h1]

instance : IsTotal SegmentResult (fun a b => a.index ≤ b.index) :=
  ⟨fun a b => Nat.le_total a.index b.index⟩

instance : IsTrans SegmentResult (fun a b => a.index ≤ b.index) :=
  ⟨fun _ _ _ hab hbc => Nat.le_trans hab hbc⟩

instance : IsAntisymm SegmentResult (fun a b => a.index < b.index) :=
  ⟨fun _ _ h1 h2 => absurd h1 (Nat.lt_asymm h2)⟩

/-- The indices of the fan-out results, in submission order, are 0..N-1. -/
theorem canonicalResults_map_index (N : Nat) (call : Nat → Nat → Option String)
    (d : ℚ) : (canonicalResults N call d).map SegmentResult.index = List.range N := by
  simp [canonicalResults, List.map_map, Function.comp_def,
    transcribeSingleSegment_index]

/-- The fan-out results are strictly sorted by index. -/
theorem canonicalResults_sorted (N : Nat) (call : Nat → Nat → Option String)
    (d : ℚ) :
    List.Sorted (fun a b : SegmentResult => a.index < b.index)
      (canonicalResults N call d) := by
  unfold canonicalResults
  refine List.Pairwise.map _ ?_ (List.pairwise_lt_range N)
  intro a b hab
  simpa [transcribeSingleSegment_index] using hab

/-- Sorting any permutation of the fan-out results by index recovers the
submission order: the merge is completion-order independent. -/
theorem sortByIndex_of_perm_canonical (N : Nat) (call : Nat → Nat → Option String)
    (d : ℚ) (rs : List SegmentResult)
    (hperm : rs.Perm (canonicalResults N call d)) :
    sortByIndex rs = canonicalResults N call d := by
  have hsortPerm : (sortByIndex rs).Perm (canonicalResults N call d) :=
    (List.perm_insertionSort _ rs).trans hperm
  have hsortedLe : List.Sorted (fun a b : SegmentResult => a.index ≤ b.index)
      (sortByIndex rs) := List.sorted_insertionSort _ rs
  have hnodup : ((sortByIndex rs).map SegmentResult.index).Nodup := by
    have hmapPerm := hsortPerm.map SegmentResult.index
    rw [canonicalResults_map_index] at hmapPerm
    exact hmapPerm.symm.nodup (List.nodup_range N)
  have hne : List.Pairwise (fun a b : SegmentResult => a.index ≠ b.index)
      (sortByIndex rs) := List.pairwise_map.mp hnodup
  have hsortedLt : List.Sorted (fun a b : SegmentResult => a.index < b.index)
      (sortByIndex rs) :=
    (hsortedLe.and hne).imp (fun h => lt_of_le_of_ne h.1 h.2)
  exact List.eq_of_perm_of_sorted hsortPerm hsortedLt
    (canonicalResults_sorted N call d)

/-- C1. Completion-order independence of the merged transcript: whatever
order the concurrent per-segment promises complete in (any permutation of
the tagged results), the merged transcript lists the segment contents in
ascending 0-based index order joined with the visible separator, and every
successfully transcribed segment's content carries its per-segment header
as prefix. -/
theorem c1_merge_order (N : Nat) (_hN : 1 ≤ N)
    (call : Nat → Nat → Option String) (d : ℚ) (rs : List SegmentResult)
    (hperm : rs.Perm (canonicalResults N call d)) :
    mergeSegmentResults rs = String.intercalate segmentSeparator
      ((List.range N).map (fun i =>
        (transcribeSingleSegment (call i) i (segmentStartTime i)
          (segmentEndTime d i)).content)) ∧
    mergeSegmentResults rs = getSegmentedTranscript N call d ∧
    (∀ i a t, (segAttemptGo (call i) 1).1 = some (a, t) →
      (transcribeSingleSegment (call i) i (segmentStartTime i)
        (segmentEndTime d i)).content =
        createSegmentHeader i (segmentStartTime i) (segmentEndTime d i) ++ t) := by
  have hsort := sortByIndex_of_perm_canonical N call d rs hperm
  have hmain : mergeSegmentResults rs = String.intercalate segmentSeparator
      ((List.range N).map (fun i =>
        (transcribeSingleSegment (call i) i (segmentStartTime i)
          (segmentEndTime d i)).content)) := by
    rw [mergeSegmentResults, hsort, canonicalResults, List.map_map]
    rfl
  refine ⟨hmain, ?_, ?_⟩
  · rw [hmain, getSegmentedTranscript, mergeSegmentResults,
      sortByIndex_of_perm_canonical N call d _ (List.Perm.refl _),
      canonicalResults, List.map_map]
    rfl
  · intro i a t hat
    simp [transcribeSingleSegment, hat]

/-- Witness for C1 with two segments delivered in reversed completion
order. -/
theorem c1_merge_order_witness :
    mergeSegmentResults
        ((canonicalResults 2 (fun i _ => some (toString i)) 600).reverse) =
      String.intercalate segmentSeparator
        ((List.range 2).map (fun i =>
          (transcribeSingleSegment ((fun (i : Nat) (_ : Nat) =>
              some (toString i)) i) i (segmentStartTime i)
            (segmentEndTime 600 i)).content)) :=
  (c1_merge_order 2 (by norm_num) (fun i _ => some (toString i)) 600 _
    (List.reverse_perm _)).1

/-- C5. Per-segment failure isolation: when every attempt on segment j
fails and every other segment succeeds on its first attempt, the merged
transcript holds the failure placeholder exactly in slot j and the real
header-prefixed text in every other slot, and the merge still completes. -/
theorem c5_failure_isolation (N : Nat) (call : Nat → Nat → Option String)
    (d : ℚ) (j : Nat) (hj : j < N) (texts : Nat → String)
    (hfail : ∀ a, call j a = none)
    (hok : ∀ i, i < N → i ≠ j → call i 1 = some (texts i)) :
    getSegmentedTranscript N call d = String.intercalate segmentSeparator
      ((List.range N).map (fun i =>
        if i = j then failedPlaceholder j
        else createSegmentHeader i (segmentStartTime i) (segmentEndTime d i) ++
          texts i)) := by
  rw [getSegmentedTranscript, mergeSegmentResults,
    sortByIndex_of_perm_canonical N call d _ (List.Perm.refl _),
    canonicalResults, List.map_map]
  apply congrArg (String.intercalate segmentSeparator)
  apply List.map_congr_left
  intro i hi
  have hiN : i < N := List.mem_range.mp hi
  by_cases hij : i = j
  · subst hij
    simp [Function.comp_def, transcribeSingleSegment,
      segAttemptGo_all_fail (call i) (hfail 1) (hfail 2) (hfail 3)]
  · simp [Function.comp_def, hij, transcribeSingleSegment,
      segAttemptGo_first_succeeds (call i) (texts i) (hok i hiN hij)]

/-- Witness for C5 with two segments, the first failing every attempt. -/
theorem c5_failure_isolation_witness :
    getSegmentedTranscript 2
        (fun i _ => if i = 0 then none else some "B") 600 =
      String.intercalate segmentSeparator
        ((List.range 2).map (fun i =>
          if i = 0 then failedPlaceholder 0
          else createSegmentHeader i (segmentStartTime i)
            (segmentEndTime 600 i) ++ (fun _ : Nat => "B") i)) :=
  c5_failure_isolation 2 (fun i _ => if i = 0 then none else some "B") 600 0
    (by norm_num) (fun _ => "B") (fun a => by simp)
    (fun i hi hne => by
      interval_cases i
      · exact absurd rfl hne
      · simp)

/-- SimpleAudioRecorder instance fields: the capture subprocess handle and
the output file path of the most recently started session. -/
structure RecorderState where
  recordingProcess : Option Nat
  outputPath : Option String
  deriving Repr, DecidableEq

/-- The environment observed during one startRecording invocation: the
permission check outcome, the output file name built from the sanitized
title and timestamp, whether the FFmpeg existence check failed, the
handle of the subprocess spawn returns, any startup error collected
during the 500ms grace period, and whether the process was found dead
after it. -/
structure StartEnv where
  permissionDenied : Bool
  outputFileName : String
  ffmpegMissing : Bool
  newPid : Nat
  startupError : Option String
  processDied : Bool
  deriving Repr, DecidableEq

/-- The { success, filePath?, error? } result object of startRecording and
stopRecording. -/
structure RecordingOutcome where
  success : Bool
  filePath : Option String
  error : Option String
  deriving Repr, DecidableEq

/-- SimpleAudioRecorder.startRecording: permission gate, output path
assignment, FFmpeg existence gate, spawn, grace-period error check. The
TS method never consults the existing recordingProcess field. -/
def startRecording (st : RecorderState) (env : StartEnv) :
    RecordingOutcome × RecorderState :=
  if env.permissionDenied then
    (⟨false, none, some "Microphone permission denied"⟩, st)
  else
    let st1 := { st with outputPath := some env.outputFileName }
    if env.ffmpegMissing then
      (⟨false, none,
        some "FFmpeg not found. Please install FFmpeg to use audio recording."⟩,
        st1)
    else
      let st2 := { st1 with recordingProcess := some env.newPid }
      match env.startupError with
      | some err =>
        (⟨false, none, some err⟩, { st2 with recordingProcess := none })
      | none =>
        if env.processDied then
          (⟨false, none, some "FFmpeg process terminated unexpectedly"⟩,
            { st2 with recordingProcess := none })
        else
          (⟨true, some env.outputFileName, none⟩, st2)

/-- SimpleAudioRecorder.stopRecording: with an active process, send the
quit key, clear the handle, then report success when the output path is
set and the file exists. fs.statSync is consulted only for a log line:
the decision ignores the file size. -/
def stopRecording (st : RecorderState) (fileExists : String → Bool)
    (fileSize : String → Nat) : RecordingOutcome × RecorderState :=
  match st.recordingProcess with
  | some _ =>
    let st1 := { st with recordingProcess := none }
    match st.outputPath with
    | some p =>
      if fileExists p then
        let _logged := fileSize p
        (⟨true, some p, none⟩, st1)
      else
        (⟨false, none, some "Recording file not found"⟩, st1)
    | none => (⟨false, none, some "Recording file not found"⟩, st1)
  | none => (⟨false, none, some "No recording in progress"⟩, st)

/-- C3 counterexample: with a recording already active (handle 1, path
"old.mp3"), a second startRecording under good conditions is not
rejected: it succeeds and replaces both the subprocess handle and the
output path of the active session. -/
theorem c3_counterexample :
    (startRecording ⟨some 1, some "old.mp3"⟩
        ⟨false, "new.mp3", false, 2, none, false⟩).1.success = true ∧
    (startRecording ⟨some 1, some "old.mp3"⟩
        ⟨false, "new.mp3", false, 2, none, false⟩).2.recordingProcess = some 2 ∧
    (startRecording ⟨some 1, some "old.mp3"⟩
        ⟨false, "new.mp3", false, 2, none, false⟩).2.outputPath =
      some "new.mp3" := by
  refine ⟨rfl, rfl, rfl⟩

/-- C3 amended. startRecording never checks for an active recording: its
result is the same whether or not a subprocess is active, and on a
successful start the recorder's handle and output path are overwritten
with the new session's values (the previous handle is dropped without
being stopped). -/
theorem c3_no_second_start_guard (st : RecorderState) (env : StartEnv)
    (hperm : env.permissionDenied = false)
    (hff : env.ffmpegMissing = false)
    (herr : env.startupError = none)
    (hdied : env.processDied = false) :
    (startRecording st env).1.success = true ∧
    (startRecording st env).2.recordingProcess = some env.newPid ∧
    (startRecording st env).2.outputPath = some env.outputFileName ∧
    (startRecording st env).1 = (startRecording ⟨none, none⟩ env).1 := by
  simp [startRecording, hperm, hff, herr, hdied]

/-- Witness for the amended C3: second start over an active session. -/
theorem c3_no_second_start_guard_witness :
    (startRecording ⟨some 1, some "old.mp3"⟩
        ⟨false, "new.mp3", false, 2, none, false⟩).1.success = true ∧
    (startRecording ⟨some 1, some "old.mp3"⟩
        ⟨false, "new.mp3", false, 2, none, false⟩).2.recordingProcess = some 2 ∧
    (startRecording ⟨some 1, some "old.mp3"⟩
        ⟨false, "new.mp3", false, 2, none, false⟩).2.outputPath =
      some "new.mp3" ∧
    (startRecording ⟨some 1, some "old.mp3"⟩
        ⟨false, "new.mp3", false, 2, none, false⟩).1 =
      (startRecording ⟨none, none⟩
        ⟨false, "new.mp3", false, 2, none, false⟩).1 :=
  c3_no_second_start_guard ⟨some 1, some "old.mp3"⟩
    ⟨false, "new.mp3", false, 2, none, false⟩ rfl rfl rfl rfl

/-- C4 counterexample: stopping a session whose output file exists but is
empty (size 0, i.e. the subprocess produced no usable audio) reports
success, not an error. -/
theorem c4_counterexample :
    (stopRecording ⟨some 1, some "out.mp3"⟩ (fun _ => true)
        (fun _ => 0)).1.success = true ∧
    (fun _ : String => (0 : Nat)) "out.mp3" = 0 := by
  refine ⟨rfl, rfl⟩

/-- C4 amended. stopRecording with an active session reports success
exactly when the output file exists: the result is entirely independent
of the file's size (an existing empty file is reported as success), and a
missing file yields the "Recording file not found" error, never success. -/
theorem c4_exists_only_check (st : RecorderState) (pid : Nat) (p : String)
    (hproc : st.recordingProcess = some pid) (hpath : st.outputPath = some p)
    (fileExists : String → Bool) (fileSize fileSize' : String → Nat) :
    ((stopRecording st fileExists fileSize).1.success = fileExists p) ∧
    stopRecording st fileExists fileSize = stopRecording st fileExists fileSize' ∧
    (fileExists p = false →
      (stopRecording st fileExists fileSize).1 =
        ⟨false, none, some "Recording file not found"⟩) := by
  refine ⟨?_, ?_, ?_⟩
  · simp only [stopRecording, hproc, hpath]
    cases h : fileExists p <;> simp [h]
  · simp only [stopRecording, hproc, hpath]
  · intro h
    simp only [stopRecording, hproc, hpath]
    simp [h]

/-- Witness for the amended C4: an existing zero-byte file still stops
with success, and the outcome ignores the size function. -/
theorem c4_exists_only_check_witness :
    ((stopRecording ⟨some 1, some "out.mp3"⟩ (fun _ => true)
        (fun _ => 0)).1.success = (fun _ : String => true) "out.mp3") ∧
    stopRecording ⟨some 1, some "out.mp3"⟩ (fun _ => true) (fun _ => 0) =
      stopRecording ⟨some 1, some "out.mp3"⟩ (fun _ => true)
        (fun _ => 999999) ∧
    ((fun _ : String => true) "out.mp3" = false →
      (stopRecording ⟨some 1, some "out.mp3"⟩ (fun _ => true)
        (fun _ => 0)).1 = ⟨false, none, some "Recording file not found"⟩) :=
  c4_exists_only_check ⟨some 1, some "out.mp3"⟩ 1 "out.mp3" rfl rfl
    (fun _ => true) (fun _ => 0) (fun _ => 999999)

/-- FFmpegManager.downloadFile chunk loop: chunks are indexed in arrival
order; at each data event the abort signal is checked first (abortAt is
the index from which on the cancel signal reads as aborted). On abort the
stream is destroyed and the promise rejects with "Download cancelled";
otherwise the chunk is appended to the temporary file. -/
def writeChunks (abortAt : Option Nat) : List Nat → Nat → Except String (List Nat)
  | [], _ => .ok []
  | c :: cs, i =>
    if abortAt.any (fun k => k ≤ i) then .error "Download cancelled"
    else
      match writeChunks abortAt cs (i + 1) with
      | .ok rest => .ok (c :: rest)
      | .error e => .error e

/-- FFmpegManager.isFFmpegValid applied to a byte content: executable
(the chmod just ran on Unix) and larger than 1000000 bytes. Contents are
modelled as the list of chunk sizes; the file size is their sum. -/
def contentIsValid (written : List Nat) : Bool :=
  decide (1000000 < written.sum)

/-- FFmpegManager.downloadFFmpeg for one transfer: run the chunk loop
into the temporary path; only on success is the temporary file moved over
the final path (fs.move with overwrite), made executable, and validated.
Returns the outcome and the content at the final path afterwards. -/
def downloadFFmpeg (chunks : List Nat) (abortAt : Option Nat)
    (finalBefore : Option (List Nat)) :
    Except String (List Nat) × Option (List Nat) :=
  match writeChunks abortAt chunks 0 with
  | .error e => (.error e, finalBefore)
  | .ok written =>
    if contentIsValid written then (.ok written, some written)
    else (.error "FFmpeg verification failed", some written)

/-- If the abort signal is set from index k on and at least one chunk
from index start onwards still arrives, the chunk loop rejects with the
cancellation error. -/
theorem writeChunks_abort :
    ∀ (chunks : List Nat) (start k : Nat), start ≤ k →
      k < start + chunks.length →
      writeChunks (some k) chunks start = .error "Download cancelled"
  | [], start, k => by
    intro h1 h2
    simp at h2
    omega
  | c :: cs, start, k => by
    intro h1 h2
    by_cases hks : k ≤ start
    · simp [writeChunks, hks]
    · have hstep : start + 1 ≤ k := by omega
      have hlen : k < (start + 1) + cs.length := by
        simp [List.length_cons] at h2
        omega
      rw [writeChunks]
      simp only [Option.any_some, decide_eq_true_eq]
      rw [if_neg hks, writeChunks_abort cs (start + 1) k hstep hlen]

/-- C8. Cancelling a download mid-transfer (the abort signal becomes set
at chunk index k, before the last chunk) rejects the transfer at that
chunk boundary with "Download cancelled"; the temporary file is never
moved, so the content at the final path is exactly what it was before the
download — no valid binary is newly placed there. -/
theorem c8_cancel_leaves_no_binary (chunks : List Nat) (k : Nat)
    (hk : k < chunks.length) (finalBefore : Option (List Nat)) :
    (downloadFFmpeg chunks (some k) finalBefore).1 =
      .error "Download cancelled" ∧
    (downloadFFmpeg chunks (some k) finalBefore).2 = finalBefore := by
  have habort := writeChunks_abort chunks 0 k (Nat.zero_le k)
    (by simpa using hk)
  constructor <;> simp [downloadFFmpeg, habort]

/-- Witness for C8: a two-chunk transfer cancelled at the second chunk
leaves the (empty) final path untouched. -/
theorem c8_cancel_leaves_no_binary_witness :
    (downloadFFmpeg [600000, 700000] (some 1) none).1 =
      .error "Download cancelled" ∧
    (downloadFFmpeg [600000, 700000] (some 1) none).2 = none :=
  c8_cancel_leaves_no_binary [600000, 700000] 1 (by norm_num) none

/-- The host platform branch taken by the resolution code. -/
inductive Platform where
  | darwin
  | win32
  | linux
  deriving Repr, DecidableEq

/-- File-system and process environment seen by
SimpleAudioRecorder.getFFmpegPath: the module-level bundled path found by
findFFmpegBinary (if any), the fs.existsSync predicate, the platform, and
the first line of a successful `where ffmpeg.exe` lookup on Windows. -/
structure FsEnv where
  bundled : Option String
  fileExists : String → Bool
  platform : Platform
  localAppData : String
  programFiles : String
  wherePathLookup : Option String

/-- The hardcoded macOS system install locations, in source order. -/
def macSystemPaths : List String :=
  ["/opt/homebrew/bin/ffmpeg", "/usr/local/bin/ffmpeg", "/usr/bin/ffmpeg"]

/-- The hardcoded Windows system install locations, in source order. -/
def winSystemPaths (env : FsEnv) : List String :=
  ["C:\\ffmpeg\\bin\\ffmpeg.exe",
   "C:\\Program Files\\ffmpeg\\bin\\ffmpeg.exe",
   "C:\\Program Files (x86)\\ffmpeg\\bin\\ffmpeg.exe",
   env.localAppData ++ "\\ffmpeg\\bin\\ffmpeg.exe",
   env.programFiles ++ "\\ffmpeg\\bin\\ffmpeg.exe"]

/-- The fallback chain of SimpleAudioRecorder.getFFmpegPath once the
bundled copy is absent or missing on disk: platform system locations,
then the executable search path (Windows), then the bundled path once
more, then the bare command name. -/
def getFFmpegPathRest (env : FsEnv) : String :=
  let sysResult : Option String :=
    match env.platform with
    | .darwin => macSystemPaths.find? env.fileExists
    | .win32 =>
      match (winSystemPaths env).find? env.fileExists with
      | some p => some p
      | none => env.wherePathLookup
    | .linux => none
  match sysResult with
  | some p => p
  | none =>
    match env.bundled with
    | some p => p
    | none =>
      match env.platform with
      | .win32 => "ffmpeg.exe"
      | _ => "ffmpeg"

/-- SimpleAudioRecorder.getFFmpegPath: the bundled copy is returned first
whenever it exists on disk; otherwise the fallback chain runs. -/
def getFFmpegPath (env : FsEnv) : String :=
  match env.bundled with
  | some p => if env.fileExists p then p else getFFmpegPathRest env
  | none => getFFmpegPathRest env

/-- Environment seen by FFmpegManager: executability checks, file sizes,
platform, the ProgramFiles variable and a `which`/`where` search-path
lookup, and the per-user data directory that holds the downloaded copy. -/
structure MgrEnv where
  fileExec : String → Bool
  fileSize : String → Nat
  platform : Platform
  userDataDir : String
  programFilesVar : Option String
  pathLookup : Option String

/-- Platform-specific executable name. -/
def execName : Platform → String
  | .win32 => "ffmpeg.exe"
  | _ => "ffmpeg"

/-- The fixed location of the downloaded per-user copy:
userData/ffmpeg/<execName>. -/
def mgrFFmpegPath (env : MgrEnv) : String :=
  env.userDataDir ++ "/ffmpeg/" ++ execName env.platform

/-- FFmpegManager.isFFmpegValid: the path is executable and its size
exceeds 1000000 bytes. -/
def isFFmpegValid (env : MgrEnv) (p : String) : Bool :=
  env.fileExec p && decide (1000000 < env.fileSize p)

/-- FFmpegManager.findSystemFFmpeg hardcoded locations, in source order. -/
def mgrSystemPaths (env : MgrEnv) : List String :=
  match env.platform with
  | .darwin => ["/opt/homebrew/bin/ffmpeg", "/usr/local/bin/ffmpeg", "/usr/bin/ffmpeg"]
  | .win32 =>
    [(env.programFilesVar.getD "C:\\Program Files") ++ "\\ffmpeg\\bin\\ffmpeg.exe",
     "C:\\ffmpeg\\bin\\ffmpeg.exe"]
  | .linux => ["/usr/bin/ffmpeg", "/usr/local/bin/ffmpeg"]

/-- FFmpegManager.findSystemFFmpeg: first executable hardcoded location,
then the search-path lookup (kept only if executable). -/
def findSystemFFmpeg (env : MgrEnv) : Option String :=
  match (mgrSystemPaths env).find? env.fileExec with
  | some p => some p
  | none =>
    match env.pathLookup with
    | some r => if env.fileExec r then some r else none
    | none => none

/-- FFmpegManager.ensureFFmpeg: the previously downloaded per-user copy is
returned whenever it is valid; only then are system locations and the
search path consulted. -/
def ensureFFmpeg (env : MgrEnv) : Option String :=
  if isFFmpegValid env (mgrFFmpegPath env) then some (mgrFFmpegPath env)
  else findSystemFFmpeg env

/-- C9. Binary resolution prefers the bundled copy: whenever the bundled
path exists (in particular when system install locations exist as well),
SimpleAudioRecorder.getFFmpegPath returns the bundled path; and in the
manager used by the transcription side, a valid previously downloaded
per-user copy is returned before any system install location or the
executable search path is consulted. -/
theorem c9_resolution_prefers_bundled (env : FsEnv) (p : String)
    (hb : env.bundled = some p) (hex : env.fileExists p = true)
    (menv : MgrEnv) (hdl : isFFmpegValid menv (mgrFFmpegPath menv) = true) :
    getFFmpegPath env = p ∧
    ensureFFmpeg menv = some (mgrFFmpegPath menv) := by
  constructor
  · simp [getFFmpegPath, hb, hex]
  · simp [ensureFFmpeg, hdl]

/-- Witness for C9: every candidate path exists (bundled and system), yet
the bundled path wins; the downloaded copy is valid and wins on the
manager side. -/
theorem c9_resolution_prefers_bundled_witness :
    getFFmpegPath ⟨some "/app/resources/bin/ffmpeg", fun _ => true,
      .darwin, "", "", none⟩ = "/app/resources/bin/ffmpeg" ∧
    ensureFFmpeg ⟨fun _ => true, fun _ => 2000000, .darwin, "/Users/u/data",
      none, none⟩ =
      some (mgrFFmpegPath ⟨fun _ => true, fun _ => 2000000, .darwin,
        "/Users/u/data", none, none⟩) :=
  c9_resolution_prefers_bundled
    ⟨some "/app/resources/bin/ffmpeg", fun _ => true, .darwin, "", "", none⟩
    "/app/resources/bin/ffmpeg" rfl rfl
    ⟨fun _ => true, fun _ => 2000000, .darwin, "/Users/u/data", none, none⟩
    (by decide)

end ListenerAI
